import Mathlib

/-!
Verification development for the music-emotion orchestration pipeline
(`src/music_game/game/engine.py`, `src/music_game/game/common.py`,
`src/music_game/game/unreal_client.py`).

The engine composes external collaborators (audio decoding, chroma and
descriptor extraction, chord estimation, the emotion classifier, the
dialogue backend and the OSC transport) into one request/response cycle.
The collaborators live in repository modules that are not part of the
orchestration core (`music_game.audio`, `music_game.emotion`,
`music_game.llm`, `pythonosc`); they are modelled here as an explicit
environment record of functions, exactly as the engine consumes them.
Python exceptions are modelled with `Except String`: a step that can raise
returns `.error`, and an uncaught exception propagates through the caller,
which is what the engine's (try/except-free) code does.

Numbers: Python floats are modelled as `ℚ`; none of the verified
properties depend on rounding, only on control flow and comparisons.
-/

/-- Modelled from the spec: `ChordPrediction` (`music_game.audio.input`,
not under `src/`) — a record with a chord `label`. -/
structure ChordPrediction where
  label : String
deriving DecidableEq, Repr

/-- Modelled from the spec: `EmotionPrediction` (`music_game.emotion.model`,
not under `src/`) — best label, its confidence, and the full distribution
(a mapping from label to probability, modelled as an association list in
insertion order, as a Python dict iterates). -/
structure EmotionPrediction where
  label : String
  confidence : ℚ
  probabilities : List (String × ℚ)
deriving DecidableEq, Repr

/-- Modelled from the spec: `DialogueTurn` (`music_game.llm.dialogue`,
not under `src/`) — a role plus text content. -/
structure DialogueTurn where
  role : String
  content : String
deriving DecidableEq, Repr

/-- A descriptor value: the descriptor mapping in the source is typed
`Dict[str, float | str]`. -/
inductive DescValue where
  | num (x : ℚ)
  | str (s : String)
deriving DecidableEq, Repr

/-- The descriptor mapping `Dict[str, float | str]`, as an association list
in insertion order. -/
abbrev Descriptors := List (String × DescValue)

/-- The `GameResult` record from `game/common.py`: aggregate of the per-request fields. -/
structure GameResult where
  chord : Option ChordPrediction
  emotion : Option EmotionPrediction
  descriptors : Descriptors
  dialogue : Option DialogueTurn
deriving DecidableEq, Repr

/-- The `GameConfig` record from `game/common.py` (the fields the engine reads).
`history_limit` is a Python `int` constrained to `≥ 0` by the configuration
surface, hence `ℕ`. -/
structure GameConfig where
  sample_rate : ℤ := 22050
  hop_length : ℤ := 512
  confidence_threshold : ℚ := mkRat 1 2
  emotion_labels : List String := ["joyful", "melancholic", "tense", "calm"]
  ollama_model : String := "llama3"
  history_limit : ℕ := 6
  unreal_enabled : Bool := false
  unreal_ip : String := "127.0.0.1"
  unreal_port : ℤ := 7000
deriving DecidableEq, Repr

/-- Python `dict.get(key, default)` on an association-list dict. -/
def dictGet (d : Descriptors) (key : String) (dflt : DescValue) : DescValue :=
  match d.lookup key with
  | some v => v
  | none => dflt

/-- Modelled from the spec / Python semantics: the built-in `float(s)` on a
string. It succeeds exactly on decimal numerals (optional leading sign,
digits, optional fractional part) and raises `ValueError` otherwise. The
verified claims only depend on: conversion of an actual float never raises,
numeral strings convert, and some strings (e.g. `"fast"`) raise. -/
def strToNumQ (s : String) : Option ℚ :=
  let signed : ℚ × List Char :=
    match s.data with
    | '-' :: rest => (-1, rest)
    | '+' :: rest => (1, rest)
    | cs => (1, cs)
  let digitsVal (cs : List Char) : ℚ :=
    cs.foldl (fun n c => 10 * n + (c.toNat - 48)) 0
  match signed.2.splitOn '.' with
  | [intPart] =>
    if intPart ≠ [] ∧ intPart.all Char.isDigit then
      some (signed.1 * digitsVal intPart)
    else none
  | [intPart, fracPart] =>
    if (intPart ≠ [] ∨ fracPart ≠ []) ∧ intPart.all Char.isDigit ∧ fracPart.all Char.isDigit then
      some (signed.1 * (digitsVal intPart + digitsVal fracPart / (10 : ℚ) ^ fracPart.length))
    else none
  | _ => none

/-- The Python built-in `float(value)` applied to a `float | str` value:
total on floats, fallible on strings. -/
def pyFloat : DescValue → Except String ℚ
  | DescValue.num x => Except.ok x
  | DescValue.str s =>
    match strToNumQ s with
    | some q => Except.ok q
    | none => Except.error "ValueError"

/-- Python `xs[-limit:]` for `limit ≥ 0`, as used by the history trim in
`MusicEmotionGame._generate_dialogue`. For `limit ≥ 1` this is the suffix of
the last `limit` elements; for `limit = 0` the slice `xs[-0:]` is `xs[0:]`,
i.e. the whole list. -/
def pyTailSlice (limit : ℕ) (xs : List α) : List α :=
  if limit = 0 then xs else (xs.reverse.take limit).reverse

/-- OSC values sent by `UnrealClient`: floats and strings (the source also
allows ints inside descriptor values; the descriptor type here is
`float | str`, so two constructors suffice). -/
inductive OSCValue where
  | f (x : ℚ)
  | s (t : String)
deriving DecidableEq, Repr

/-- A descriptor value as the OSC payload sent by `UnrealClient`: the
source's `isinstance(value, (float, int, str))` test always passes for a
`float | str` value, so every descriptor entry is sent. -/
def oscOfDescValue : DescValue → OSCValue
  | DescValue.num x => OSCValue.f x
  | DescValue.str s => OSCValue.s s

/-- The environment of external collaborators exactly as the engine calls
them. `FEATURE_KEYS`, `predict` and `generate` are modelled from the spec
(the modules `music_game.emotion.model` and `music_game.llm.dialogue` are
not under `src/`); `send_message` is the OSC transport
(`pythonosc.udp_client.SimpleUDPClient.send_message`), which may raise. -/
structure Env where
  FEATURE_KEYS : List String
  load_audio_samples : String → ℤ → (List ℚ × ℤ)
  compute_chroma : List ℚ → ℤ → ℤ → List (List ℚ)
  estimate_chord : List (List ℚ) → Option ChordPrediction
  extract_essentia_descriptors : List ℚ → ℤ → Descriptors
  derive_chroma_from_midi : String → Option (List (List ℚ))
  predict : List (String × ℚ) → EmotionPrediction
  generate : String → String → Descriptors → List DialogueTurn → Except String DialogueTurn
  send_message : String → OSCValue → Except String Unit

/-- Pipeline side effects, for stating the ordering guarantees: one event
per stage of §4.1, emitted in the order the engine performs the stages. -/
inductive Event where
  | acquireChroma
  | estimateChord
  | acquireDescriptors
  | inferEmotion
  | generateDialogue
  | mutateHistory
  | assembleResult
  | dispatchSink
deriving DecidableEq, Repr

/-- The "Send Chord Data" block of `UnrealClient.send_game_result`
(`game/unreal_client.py`): one message when the chord is present, none
otherwise. -/
def chordMsgs (result : GameResult) : List (String × OSCValue) :=
  match result.chord with
  | some chord => [("/music/chord/label", OSCValue.s chord.label)]
  | none => []

/-- The "Send Emotion Data" block: label, confidence, and one message per
probability entry, skipped entirely when the emotion is unset. -/
def emotionMsgs (result : GameResult) : List (String × OSCValue) :=
  match result.emotion with
  | some emotion =>
    ("/music/emotion/label", OSCValue.s emotion.label)
      :: ("/music/emotion/confidence", OSCValue.f emotion.confidence)
      :: emotion.probabilities.map
          (fun p => ("/music/emotion/probability/" ++ p.1, OSCValue.f p.2))
  | none => []

/-- The "Send Dialogue/LLM Result" block: the dialogue messages are sent
under the `/music/llm/` namespace. -/
def dialogueMsgs (result : GameResult) : List (String × OSCValue) :=
  match result.dialogue with
  | some dialogue =>
    [("/music/llm/content", OSCValue.s dialogue.content),
     ("/music/llm/role", OSCValue.s dialogue.role)]
  | none => []

/-- The "Send Descriptors" block: one message per descriptor entry (the
`isinstance` guard always passes for a `float | str` value). -/
def descMsgs (result : GameResult) : List (String × OSCValue) :=
  result.descriptors.map (fun kv => ("/music/descriptor/" ++ kv.1, oscOfDescValue kv.2))

/-- The full message list of `UnrealClient.send_game_result`: one
`(address, value)` pair per `send_message` call, in source order — chord
block, emotion block, dialogue block, descriptor block. -/
def osc_messages (result : GameResult) : List (String × OSCValue) :=
  chordMsgs result ++ emotionMsgs result ++ dialogueMsgs result ++ descMsgs result

/-- Send a list of OSC messages in order; the first transport failure
propagates (there is no try/except in `send_game_result`). -/
def sendAll (env : Env) : List (String × OSCValue) → Except String Unit
  | [] => Except.ok ()
  | m :: rest =>
    match env.send_message m.1 m.2 with
    | Except.error e => Except.error e
    | Except.ok _ => sendAll env rest

/-- Model of `UnrealClient.send_game_result`: sends the message list of the result
over the transport, in order. -/
def send_game_result (env : Env) (result : GameResult) : Except String Unit :=
  sendAll env (osc_messages result)

/-- The comprehension
`{key: float(descriptors.get(key, 0.0)) for key in FEATURE_KEYS}` of
`MusicEmotionGame._infer_emotion`, with the key list explicit for
induction: a `float(...)` failure (ValueError) aborts the comprehension. -/
def coerceKeys (descriptors : Descriptors) : List String → Except String (List (String × ℚ))
  | [] => Except.ok []
  | key :: rest =>
    match pyFloat (dictGet descriptors key (DescValue.num 0)) with
    | Except.error e => Except.error e
    | Except.ok x =>
      match coerceKeys descriptors rest with
      | Except.error e => Except.error e
      | Except.ok tail => Except.ok ((key, x) :: tail)

/-- The descriptor-to-feature coercion of `MusicEmotionGame._infer_emotion`
over the classifier's declared key set. -/
def coerce_features (env : Env) (descriptors : Descriptors) :
    Except String (List (String × ℚ)) :=
  coerceKeys descriptors env.FEATURE_KEYS

/-- Model of `MusicEmotionGame._infer_emotion`: coerce the descriptors to numeric
features, run the classifier, and discard the prediction when its
confidence is strictly below the configured threshold. -/
def infer_emotion (env : Env) (cfg : GameConfig) (descriptors : Descriptors) :
    Except String (Option EmotionPrediction) :=
  match coerce_features env descriptors with
  | Except.error e => Except.error e
  | Except.ok numeric_features =>
    let prediction := env.predict numeric_features
    if prediction.confidence < cfg.confidence_threshold then Except.ok none
    else Except.ok (some prediction)

/-- The history update of `MusicEmotionGame._generate_dialogue`:
`self.history.append(turn)` followed by
`self.history = self.history[-self.config.history_limit:]`. -/
def append_and_trim (limit : ℕ) (history : List DialogueTurn) (turn : DialogueTurn) :
    List DialogueTurn :=
  pyTailSlice limit (history ++ [turn])

/-- Model of `MusicEmotionGame._generate_dialogue`: gate on both chord and emotion
being present (`if not chord or not emotion: return None` — a dataclass
instance is truthy, `None` is falsy); on success append the new turn to the
history and trim it. Returns the optional turn, the new history, and the
emitted stage events. -/
def generate_dialogue (env : Env) (cfg : GameConfig)
    (chord : Option ChordPrediction) (emotion : Option EmotionPrediction)
    (descriptors : Descriptors) (history : List DialogueTurn) :
    Except String (Option DialogueTurn × List DialogueTurn × List Event) :=
  match chord, emotion with
  | some chordP, some emotionP =>
    match env.generate emotionP.label chordP.label descriptors history with
    | Except.error e => Except.error e
    | Except.ok turn =>
      Except.ok (some turn, append_and_trim cfg.history_limit history turn,
        [Event.generateDialogue, Event.mutateHistory])
  | _, _ => Except.ok (none, history, [])

/-- Model of `MusicEmotionGame.process_audio_file`: decode, chroma, chord,
descriptors, gated emotion, gated dialogue (with history update), assemble
the `GameResult`, and, when the Unreal client is configured, dispatch it —
with no exception handling at any step. Returns the result, the new
history, and the emitted stage events in execution order. -/
def process_audio_file (env : Env) (cfg : GameConfig)
    (history : List DialogueTurn) (file_path : String) :
    Except String (GameResult × List DialogueTurn × List Event) :=
  let loaded := env.load_audio_samples file_path cfg.sample_rate
  let chroma := env.compute_chroma loaded.1 loaded.2 cfg.hop_length
  let chord := env.estimate_chord chroma
  let descriptors := env.extract_essentia_descriptors loaded.1 loaded.2
  match infer_emotion env cfg descriptors with
  | Except.error e => Except.error e
  | Except.ok emotion =>
    match generate_dialogue env cfg chord emotion descriptors history with
    | Except.error e => Except.error e
    | Except.ok (dialogue, history2, devts) =>
      let result : GameResult :=
        { chord := chord, emotion := emotion, descriptors := descriptors, dialogue := dialogue }
      match (if cfg.unreal_enabled then send_game_result env result else Except.ok ()) with
      | Except.error e => Except.error e
      | Except.ok _ =>
        Except.ok (result, history2,
          [Event.acquireChroma, Event.estimateChord, Event.acquireDescriptors,
           Event.inferEmotion]
            ++ devts ++ [Event.assembleResult]
            ++ (if cfg.unreal_enabled then [Event.dispatchSink] else []))

/-- Model of `MusicEmotionGame.process_midi_file`: derive chroma from the MIDI file
(which may legitimately yield none), estimate the chord only when chroma is
present, zero-fill the descriptor mapping over `FEATURE_KEYS`, infer
emotion only when a chord was found (`... if chord else None`; the features
passed are `{key: float(descriptors[key]) for key in FEATURE_KEYS}`, i.e.
the zero-filled mapping itself, since every `descriptors[key]` is `0.0`),
then dialogue, assembly and optional dispatch as on the audio path. -/
def process_midi_file (env : Env) (cfg : GameConfig)
    (history : List DialogueTurn) (file_path : String) :
    Except String (GameResult × List DialogueTurn × List Event) :=
  let chroma := env.derive_chroma_from_midi file_path
  let chord := match chroma with
    | some c => env.estimate_chord c
    | none => none
  let descriptors : Descriptors := env.FEATURE_KEYS.map (fun key => (key, DescValue.num 0))
  match (match chord with
         | some _ => infer_emotion env cfg descriptors
         | none => Except.ok none) with
  | Except.error e => Except.error e
  | Except.ok emotion =>
    match generate_dialogue env cfg chord emotion descriptors history with
    | Except.error e => Except.error e
    | Except.ok (dialogue, history2, devts) =>
      let result : GameResult :=
        { chord := chord, emotion := emotion, descriptors := descriptors, dialogue := dialogue }
      match (if cfg.unreal_enabled then send_game_result env result else Except.ok ()) with
      | Except.error e => Except.error e
      | Except.ok _ =>
        Except.ok (result, history2,
          [Event.acquireChroma]
            ++ (match chroma with | some _ => [Event.estimateChord] | none => [])
            ++ [Event.acquireDescriptors]
            ++ (match chord with | some _ => [Event.inferEmotion] | none => [])
            ++ devts ++ [Event.assembleResult]
            ++ (if cfg.unreal_enabled then [Event.dispatchSink] else []))

/-- Iterated history updates: the conversation history of one engine
instance after successively generating the given turns, starting empty —
each step is exactly the `append_and_trim` performed by
`_generate_dialogue` on a successful generation. -/
def runHistory (limit : ℕ) (turns : List DialogueTurn) : List DialogueTurn :=
  turns.foldl (append_and_trim limit) []

/-- The last `limit` elements of a list (all of it when it is shorter). -/
def lastN (limit : ℕ) (xs : List α) : List α :=
  (xs.reverse.take limit).reverse

/-- A benign concrete environment: every collaborator succeeds, the chord
is detected, and the classifier is confident. Used to instantiate the
general theorems at concrete inputs. -/
def envBase : Env where
  FEATURE_KEYS := ["tempo", "energy"]
  load_audio_samples := fun _ _ => ([1], 22050)
  compute_chroma := fun _ _ _ => [[1]]
  estimate_chord := fun _ => some ⟨"Dm"⟩
  extract_essentia_descriptors := fun _ _ =>
    [("tempo", DescValue.num 180), ("energy", DescValue.num (mkRat 9 10))]
  derive_chroma_from_midi := fun _ => none
  predict := fun _ =>
    ⟨"tense", mkRat 4 5,
      [("joyful", mkRat 1 20), ("melancholic", mkRat 1 20), ("tense", mkRat 4 5),
       ("calm", mkRat 1 10)]⟩
  generate := fun _ _ _ _ => Except.ok ⟨"assistant", "hi"⟩
  send_message := fun _ _ => Except.ok ()

/-- Three concrete dialogue turns, for instantiating general theorems. -/
def turnA : DialogueTurn := ⟨"assistant", "a"⟩

def turnB : DialogueTurn := ⟨"assistant", "b"⟩

def turnC : DialogueTurn := ⟨"assistant", "c"⟩

/-- The chord the audio path computes for a request: `estimate_chord` of
the chroma of the decoded samples. -/
def audioChord (env : Env) (cfg : GameConfig) (path : String) : Option ChordPrediction :=
  let loaded := env.load_audio_samples path cfg.sample_rate
  env.estimate_chord (env.compute_chroma loaded.1 loaded.2 cfg.hop_length)

/-- The descriptor mapping the audio path computes for a request. -/
def audioDescriptors (env : Env) (cfg : GameConfig) (path : String) : Descriptors :=
  let loaded := env.load_audio_samples path cfg.sample_rate
  env.extract_essentia_descriptors loaded.1 loaded.2

/-- The chord the MIDI path computes: estimated only when chroma could be
derived. -/
def midiChord (env : Env) (path : String) : Option ChordPrediction :=
  match env.derive_chroma_from_midi path with
  | some c => env.estimate_chord c
  | none => none

/-- The zero-filled descriptor mapping `{key: 0.0 for key in FEATURE_KEYS}`. -/
def zeroDescriptors (keys : List String) : Descriptors :=
  keys.map (fun key => (key, DescValue.num 0))

/-- The default configuration (every field its `GameConfig` default). -/
def cfgBase : GameConfig := {}

/-- Decidable equality of `Except` results, so that concrete engine runs
can be checked by `decide`. -/
instance {e : Type} {a : Type} [DecidableEq e] [DecidableEq a] : DecidableEq (Except e a) :=
  fun x y =>
    match x, y with
    | Except.error u, Except.error v =>
      if h : u = v then Decidable.isTrue (by rw [h]) else Decidable.isFalse (by simp [h])
    | Except.error _, Except.ok _ => Decidable.isFalse (by simp)
    | Except.ok _, Except.error _ => Decidable.isFalse (by simp)
    | Except.ok u, Except.ok v =>
      if h : u = v then Decidable.isTrue (by rw [h]) else Decidable.isFalse (by simp [h])

/-- Environment whose dialogue backend always raises. -/
def envBackendDown : Env :=
  { envBase with generate := fun _ _ _ _ => Except.error "connection refused" }

/-- Environment whose OSC transport always raises. -/
def envSinkDown : Env :=
  { envBase with send_message := fun _ _ => Except.error "sink down" }

/-- Configuration with the Unreal broadcast sink enabled. -/
def cfgUnreal : GameConfig := { unreal_enabled := true }

/-- The canonical §4.1 stage order of one request. -/
def canonicalStageOrder : List Event :=
  [Event.acquireChroma, Event.estimateChord, Event.acquireDescriptors, Event.inferEmotion,
   Event.generateDialogue, Event.mutateHistory, Event.assembleResult, Event.dispatchSink]

/-- The result of a fully successful audio request against `envBase`. -/
def resultFull : GameResult :=
  { chord := some ⟨"Dm"⟩,
    emotion := some ⟨"tense", mkRat 4 5,
      [("joyful", mkRat 1 20), ("melancholic", mkRat 1 20), ("tense", mkRat 4 5),
       ("calm", mkRat 1 10)]⟩,
    descriptors := [("tempo", DescValue.num 180), ("energy", DescValue.num (mkRat 9 10))],
    dialogue := some ⟨"assistant", "hi"⟩ }

/-- A MIDI environment in which chroma derivation succeeds, so the chord
is detected and the classifier is consulted on the MIDI path. -/
def envMidiA : Env := { envBase with derive_chroma_from_midi := fun _ => some [[1]] }

/-- A MIDI environment whose chroma derivation succeeds but whose dialogue
backend always raises. -/
def envMidiBackendDown : Env :=
  { envMidiA with generate := fun _ _ _ _ => Except.error "connection refused" }

/-- A classifier that agrees with `envBase.predict` on every nonempty
feature list but differs on the empty one. -/
def predictAlt : List (String × ℚ) → EmotionPrediction :=
  fun nf => if nf = [] then ⟨"calm", 0, []⟩ else envBase.predict nf

/-- Environment whose descriptor extraction binds the declared feature key
`"tempo"` to the non-numeric string `"fast"`. -/
def envStrDesc : Env :=
  { envBase with
    FEATURE_KEYS := ["tempo"],
    extract_essentia_descriptors := fun _ _ => [("tempo", DescValue.str "fast")] }

theorem length_lastN (L : ℕ) (xs : List α) : (lastN L xs).length = min xs.length L := by
  simp [lastN, Nat.min_comm]

theorem lastN_of_length_le (L : ℕ) (xs : List α) (h : xs.length ≤ L) : lastN L xs = xs := by
  rw [lastN, List.take_of_length_le (by simpa using h), List.reverse_reverse]

theorem lastN_append_left (L : ℕ) (xs ys : List α) :
    lastN L (lastN L xs ++ ys) = lastN L (xs ++ ys) := by
  unfold lastN
  rw [List.reverse_append, List.reverse_reverse, List.reverse_append]
  rw [List.take_append_eq_append_take, List.take_append_eq_append_take, List.take_take]
  simp

theorem lastN_suffix (L : ℕ) (xs : List α) : (lastN L xs).IsSuffix xs := by
  have h1 : (lastN L xs).reverse.IsPrefix xs.reverse := by
    rw [lastN, List.reverse_reverse]
    exact List.take_prefix _ _
  simpa using List.reverse_prefix.mp h1

theorem foldl_append_and_trim (L : ℕ) (hL : 1 ≤ L) (turns : List DialogueTurn) :
    ∀ h : List DialogueTurn, h.length ≤ L →
      turns.foldl (append_and_trim L) h = lastN L (h ++ turns) := by
  induction turns with
  | nil =>
    intro h hh
    simpa using (lastN_of_length_le L h hh).symm
  | cons t ts ih =>
    intro h hh
    have hL0 : L ≠ 0 := by omega
    have step : append_and_trim L h t = lastN L (h ++ [t]) := by
      simp [append_and_trim, pyTailSlice, lastN, hL0]
    rw [List.foldl_cons, step,
      ih (lastN L (h ++ [t])) (by rw [length_lastN]; omega),
      lastN_append_left]
    simp

/-- Claim C3 (amended): for every `history_limit L ≥ 1`, after N successful
dialogue generations on one engine instance the conversation history equals
the suffix of the last `min N L` generated turns in generation order (so its
length is exactly `min N L`, it never exceeds L, and trimming removes only
the oldest entries, preserving the relative order of the retained suffix);
for `L = 0` the trim `history[-0:]` keeps the entire list, so the history
has length N, not `min N 0 = 0`. -/
theorem history_bound_fifo :
    (∀ (L : ℕ) (turns : List DialogueTurn), 1 ≤ L →
        runHistory L turns = lastN L turns ∧
        (runHistory L turns).length = min turns.length L ∧
        (runHistory L turns).IsSuffix turns)
      ∧ (∀ turns : List DialogueTurn, runHistory 0 turns = turns) := by
  constructor
  · intro L turns hL
    have h1 : runHistory L turns = lastN L turns := by
      simpa using foldl_append_and_trim L hL turns [] (by simp)
    exact ⟨h1, by rw [h1, length_lastN], by rw [h1]; exact lastN_suffix L turns⟩
  · intro turns
    have key : ∀ h : List DialogueTurn, turns.foldl (append_and_trim 0) h = h ++ turns := by
      induction turns with
      | nil => intro h; simp
      | cons t ts ih =>
        intro h
        rw [List.foldl_cons, ih]
        simp [append_and_trim, pyTailSlice]
    simpa using key []

theorem history_bound_fifo_witness :
    runHistory 2 [turnA, turnB, turnC] = lastN 2 [turnA, turnB, turnC]
      ∧ lastN 2 [turnA, turnB, turnC] = [turnB, turnC] :=
  ⟨(history_bound_fifo.1 2 [turnA, turnB, turnC] (by decide)).1, by decide⟩

/-- Claim C3, counterexample to the `L = 0` case: with `history_limit = 0`,
one successful dialogue generation leaves a history of length 1, not
`min 1 0 = 0` — Python's `history[-0:]` is the whole list. -/
theorem history_limit_zero_counterexample :
    generate_dialogue envBase { history_limit := 0 } (some ⟨"C"⟩)
        (some ⟨"joyful", 1, [("joyful", 1)]⟩) [] []
      = Except.ok (some ⟨"assistant", "hi"⟩, [⟨"assistant", "hi"⟩],
          [Event.generateDialogue, Event.mutateHistory])
    ∧ ¬ ([(⟨"assistant", "hi"⟩ : DialogueTurn)].length = min 1 0) :=
  ⟨rfl, by decide⟩

theorem process_audio_ok_inv (env : Env) (cfg : GameConfig) (history : List DialogueTurn)
    (path : String) (r : GameResult) (h2 : List DialogueTurn) (tr : List Event)
    (h : process_audio_file env cfg history path = Except.ok (r, h2, tr)) :
    ∃ emotion dialogue devts,
      infer_emotion env cfg (audioDescriptors env cfg path) = Except.ok emotion ∧
      generate_dialogue env cfg (audioChord env cfg path) emotion
          (audioDescriptors env cfg path) history = Except.ok (dialogue, h2, devts) ∧
      r = ⟨audioChord env cfg path, emotion, audioDescriptors env cfg path, dialogue⟩ ∧
      (cfg.unreal_enabled = true → send_game_result env r = Except.ok ()) ∧
      tr = [Event.acquireChroma, Event.estimateChord, Event.acquireDescriptors,
          Event.inferEmotion]
        ++ devts ++ [Event.assembleResult]
        ++ (if cfg.unreal_enabled then [Event.dispatchSink] else []) := by
  simp only [process_audio_file] at h
  rw [show env.extract_essentia_descriptors (env.load_audio_samples path cfg.sample_rate).1
        (env.load_audio_samples path cfg.sample_rate).2
      = audioDescriptors env cfg path from rfl] at h
  rw [show env.estimate_chord
        (env.compute_chroma (env.load_audio_samples path cfg.sample_rate).1
          (env.load_audio_samples path cfg.sample_rate).2 cfg.hop_length)
      = audioChord env cfg path from rfl] at h
  cases he : infer_emotion env cfg (audioDescriptors env cfg path) with
  | error e => rw [he] at h; exact absurd h (by simp)
  | ok emotion =>
    rw [he] at h
    simp only [] at h
    cases hd : generate_dialogue env cfg (audioChord env cfg path) emotion
        (audioDescriptors env cfg path) history with
    | error e => rw [hd] at h; exact absurd h (by simp)
    | ok x =>
      obtain ⟨dialogue, history2, devts⟩ := x
      rw [hd] at h
      simp only [] at h
      cases hs : (if cfg.unreal_enabled then
          send_game_result env
            { chord := audioChord env cfg path, emotion := emotion,
              descriptors := audioDescriptors env cfg path, dialogue := dialogue }
        else Except.ok ()) with
      | error e => rw [hs] at h; exact absurd h (by simp)
      | ok u =>
        rw [hs] at h
        simp only [Except.ok.injEq, Prod.mk.injEq] at h
        obtain ⟨hr, hh2, htr⟩ := h
        subst hr hh2 htr
        refine ⟨emotion, dialogue, devts, rfl, hd, rfl, ?_, rfl⟩
        intro hu
        rw [hu] at hs
        simpa using hs

theorem generate_dialogue_gate (env : Env) (cfg : GameConfig)
    (chord : Option ChordPrediction) (emotion : Option EmotionPrediction)
    (descriptors : Descriptors) (history : List DialogueTurn)
    (hgate : chord = none ∨ emotion = none) :
    generate_dialogue env cfg chord emotion descriptors history
      = Except.ok (none, history, []) := by
  cases chord with
  | none => cases emotion with
    | none => rfl
    | some e => rfl
  | some c => cases emotion with
    | none => rfl
    | some e => rcases hgate with hgate | hgate <;> exact absurd hgate (by simp)

theorem process_midi_ok_inv (env : Env) (cfg : GameConfig) (history : List DialogueTurn)
    (path : String) (r : GameResult) (h2 : List DialogueTurn) (tr : List Event)
    (h : process_midi_file env cfg history path = Except.ok (r, h2, tr)) :
    ∃ emotion dialogue devts,
      (match midiChord env path with
       | some _ => infer_emotion env cfg (zeroDescriptors env.FEATURE_KEYS)
       | none => Except.ok none) = Except.ok emotion ∧
      generate_dialogue env cfg (midiChord env path) emotion
          (zeroDescriptors env.FEATURE_KEYS) history = Except.ok (dialogue, h2, devts) ∧
      r = ⟨midiChord env path, emotion, zeroDescriptors env.FEATURE_KEYS, dialogue⟩ ∧
      (cfg.unreal_enabled = true → send_game_result env r = Except.ok ()) ∧
      tr = [Event.acquireChroma]
        ++ (match env.derive_chroma_from_midi path with
            | some _ => [Event.estimateChord]
            | none => [])
        ++ [Event.acquireDescriptors]
        ++ (match midiChord env path with
            | some _ => [Event.inferEmotion]
            | none => [])
        ++ devts ++ [Event.assembleResult]
        ++ (if cfg.unreal_enabled then [Event.dispatchSink] else []) := by
  simp only [process_midi_file] at h
  cases hc : env.derive_chroma_from_midi path with
  | none =>
    rw [hc] at h
    simp only [] at h
    rw [generate_dialogue_gate env cfg none none
      (env.FEATURE_KEYS.map fun key => (key, DescValue.num 0)) history (Or.inl rfl)] at h
    simp only [] at h
    cases hs : (if cfg.unreal_enabled then
        send_game_result env
          { chord := none, emotion := none,
            descriptors := env.FEATURE_KEYS.map fun key => (key, DescValue.num 0),
            dialogue := none }
      else Except.ok ()) with
    | error e => rw [hs] at h; exact absurd h (by simp)
    | ok u =>
      rw [hs] at h
      simp only [Except.ok.injEq, Prod.mk.injEq] at h
      obtain ⟨hr, hh2, htr⟩ := h
      subst hh2 htr
      refine ⟨none, none, [], by simp [midiChord, hc], ?_, ?_, ?_, ?_⟩
      · rw [generate_dialogue_gate env cfg (midiChord env path) none
          (zeroDescriptors env.FEATURE_KEYS) history (Or.inr rfl)]
      · rw [← hr]; simp [midiChord, hc, zeroDescriptors]
      · intro hu
        rw [← hr]
        rw [hu] at hs
        simpa using hs
      · simp [midiChord, hc]
  | some chro =>
    rw [hc] at h
    simp only [] at h
    cases hch : env.estimate_chord chro with
    | none =>
      rw [hch] at h
      simp only [] at h
      rw [generate_dialogue_gate env cfg none none
        (env.FEATURE_KEYS.map fun key => (key, DescValue.num 0)) history (Or.inl rfl)] at h
      simp only [] at h
      cases hs : (if cfg.unreal_enabled then
          send_game_result env
            { chord := none, emotion := none,
              descriptors := env.FEATURE_KEYS.map fun key => (key, DescValue.num 0),
              dialogue := none }
        else Except.ok ()) with
      | error e => rw [hs] at h; exact absurd h (by simp)
      | ok u =>
        rw [hs] at h
        simp only [Except.ok.injEq, Prod.mk.injEq] at h
        obtain ⟨hr, hh2, htr⟩ := h
        subst hh2 htr
        refine ⟨none, none, [], by simp [midiChord, hc, hch], ?_, ?_, ?_, ?_⟩
        · rw [generate_dialogue_gate env cfg (midiChord env path) none
            (zeroDescriptors env.FEATURE_KEYS) history (Or.inr rfl)]
        · rw [← hr]; simp [midiChord, hc, hch, zeroDescriptors]
        · intro hu
          rw [← hr]
          rw [hu] at hs
          simpa using hs
        · simp [midiChord, hc, hch]
    | some chordP =>
      rw [hch] at h
      simp only [] at h
      cases he : infer_emotion env cfg (env.FEATURE_KEYS.map fun key => (key, DescValue.num 0)) with
      | error e => rw [he] at h; exact absurd h (by simp)
      | ok emotion =>
        rw [he] at h
        simp only [] at h
        cases hd : generate_dialogue env cfg (some chordP) emotion
            (env.FEATURE_KEYS.map fun key => (key, DescValue.num 0)) history with
        | error e => rw [hd] at h; exact absurd h (by simp)
        | ok x =>
          obtain ⟨dialogue, history2, devts⟩ := x
          rw [hd] at h
          simp only [] at h
          cases hs : (if cfg.unreal_enabled then
              send_game_result env
                { chord := some chordP, emotion := emotion,
                  descriptors := env.FEATURE_KEYS.map fun key => (key, DescValue.num 0),
                  dialogue := dialogue }
            else Except.ok ()) with
          | error e => rw [hs] at h; exact absurd h (by simp)
          | ok u =>
            rw [hs] at h
            simp only [Except.ok.injEq, Prod.mk.injEq] at h
            obtain ⟨hr, hh2, htr⟩ := h
            subst hh2 htr
            refine ⟨emotion, dialogue, devts, by simp [midiChord, hc, hch]; exact he,
              ?_, ?_, ?_, ?_⟩
            · rw [show midiChord env path = some chordP by simp [midiChord, hc, hch]]
              exact hd
            · rw [← hr]; simp [midiChord, hc, hch, zeroDescriptors]
            · intro hu
              rw [← hr]
              rw [hu] at hs
              simpa using hs
            · simp [midiChord, hc, hch]

/-- Claim C4: confidence gating — when the numeric-feature coercion
succeeds, `_infer_emotion` returns no emotion exactly when the classifier's
confidence is strictly below `confidence_threshold`, and returns the raw
prediction when the confidence is greater than or equal to the threshold;
moreover the emotion field of the `GameResult` returned by
`process_audio_file` is exactly the gated value computed on that request's
descriptors. -/
theorem confidence_gating :
    (∀ (env : Env) (cfg : GameConfig) (ds : Descriptors) (nf : List (String × ℚ)),
        coerce_features env ds = Except.ok nf →
        ((env.predict nf).confidence < cfg.confidence_threshold →
            infer_emotion env cfg ds = Except.ok none) ∧
        (cfg.confidence_threshold ≤ (env.predict nf).confidence →
            infer_emotion env cfg ds = Except.ok (some (env.predict nf))))
      ∧ (∀ (env : Env) (cfg : GameConfig) (history : List DialogueTurn) (path : String)
            (r : GameResult) (h2 : List DialogueTurn) (tr : List Event),
          process_audio_file env cfg history path = Except.ok (r, h2, tr) →
          infer_emotion env cfg (audioDescriptors env cfg path) = Except.ok r.emotion) := by
  constructor
  · intro env cfg ds nf hc
    constructor
    · intro hlt
      simp [infer_emotion, hc, hlt]
    · intro hge
      simp [infer_emotion, hc, not_lt.mpr hge]
  · intro env cfg history path r h2 tr h
    obtain ⟨emotion, dialogue, devts, he, hd, hr, _, _⟩ :=
      process_audio_ok_inv env cfg history path r h2 tr h
    rw [hr]
    exact he

theorem confidence_gating_witness :
    infer_emotion envBase cfgBase
        [("tempo", DescValue.num 180), ("energy", DescValue.num (mkRat 9 10))]
      = Except.ok (some (envBase.predict [("tempo", 180), ("energy", mkRat 9 10)])) :=
  ((confidence_gating.1 envBase cfgBase
      [("tempo", DescValue.num 180), ("energy", DescValue.num (mkRat 9 10))]
      [("tempo", 180), ("energy", mkRat 9 10)] rfl).2 (by norm_num [envBase, cfgBase]))

/-- Claim C5: the dialogue-generation gate — when either the chord or the
gated emotion is absent, `_generate_dialogue` returns no dialogue (for
every environment, so in particular without calling the text-generation
backend: this holds even when the backend always raises), the history is
unchanged and no dialogue or history events are emitted; at the result
level, a returned `GameResult` with chord or emotion unset has dialogue
unset and the history it leaves behind is the input history. -/
theorem dialogue_gate :
    (∀ (env : Env) (cfg : GameConfig) (chord : Option ChordPrediction)
        (emotion : Option EmotionPrediction) (ds : Descriptors)
        (history : List DialogueTurn),
        chord = none ∨ emotion = none →
        generate_dialogue env cfg chord emotion ds history = Except.ok (none, history, []))
      ∧ (∀ (env : Env) (cfg : GameConfig) (history : List DialogueTurn) (path : String)
            (r : GameResult) (h2 : List DialogueTurn) (tr : List Event),
          process_audio_file env cfg history path = Except.ok (r, h2, tr) →
          (r.chord = none ∨ r.emotion = none) → r.dialogue = none ∧ h2 = history)
      ∧ (∀ (env : Env) (cfg : GameConfig) (history : List DialogueTurn) (path : String)
            (r : GameResult) (h2 : List DialogueTurn) (tr : List Event),
          process_midi_file env cfg history path = Except.ok (r, h2, tr) →
          (r.chord = none ∨ r.emotion = none) → r.dialogue = none ∧ h2 = history) := by
  refine ⟨generate_dialogue_gate, ?_, ?_⟩
  · intro env cfg history path r h2 tr h hor
    obtain ⟨emotion, dialogue, devts, he, hd, hr, _, _⟩ :=
      process_audio_ok_inv env cfg history path r h2 tr h
    subst hr
    simp only [] at hor
    rw [generate_dialogue_gate env cfg _ _ _ _ hor] at hd
    simp only [Except.ok.injEq, Prod.mk.injEq] at hd
    obtain ⟨h1, h2eq, _⟩ := hd
    exact ⟨by simp [← h1], h2eq.symm⟩
  · intro env cfg history path r h2 tr h hor
    obtain ⟨emotion, dialogue, devts, he, hd, hr, _, _⟩ :=
      process_midi_ok_inv env cfg history path r h2 tr h
    subst hr
    simp only [] at hor
    rw [generate_dialogue_gate env cfg _ _ _ _ hor] at hd
    simp only [Except.ok.injEq, Prod.mk.injEq] at hd
    obtain ⟨h1, h2eq, _⟩ := hd
    exact ⟨by simp [← h1], h2eq.symm⟩

theorem dialogue_gate_witness :
    generate_dialogue envBase cfgBase none
        (some ⟨"tense", mkRat 4 5, [("tense", mkRat 4 5)]⟩) [] [turnA]
      = Except.ok (none, [turnA], []) :=
  dialogue_gate.1 envBase cfgBase none (some ⟨"tense", mkRat 4 5, [("tense", mkRat 4 5)]⟩)
    [] [turnA] (Or.inl rfl)

/-- Claim C2, counterexample: an audio request and a MIDI request, each
with the chord detected and the emotion passing the confidence gate, whose
backend raises, make `process_audio_file` and `process_midi_file` raise
`"connection refused"` instead of returning a `GameResult` with dialogue
unset — the engine has no exception handler. -/
theorem backend_downgrade_counterexample :
    audioChord envBackendDown cfgBase "song.wav" = some ⟨"Dm"⟩
      ∧ infer_emotion envBackendDown cfgBase
          (audioDescriptors envBackendDown cfgBase "song.wav")
        = Except.ok (some ⟨"tense", mkRat 4 5,
            [("joyful", mkRat 1 20), ("melancholic", mkRat 1 20), ("tense", mkRat 4 5),
             ("calm", mkRat 1 10)]⟩)
      ∧ process_audio_file envBackendDown cfgBase [] "song.wav"
        = Except.error "connection refused"
      ∧ midiChord envMidiBackendDown "tune.mid" = some ⟨"Dm"⟩
      ∧ infer_emotion envMidiBackendDown cfgBase
          (zeroDescriptors envMidiBackendDown.FEATURE_KEYS)
        = Except.ok (some ⟨"tense", mkRat 4 5,
            [("joyful", mkRat 1 20), ("melancholic", mkRat 1 20), ("tense", mkRat 4 5),
             ("calm", mkRat 1 10)]⟩)
      ∧ process_midi_file envMidiBackendDown cfgBase [] "tune.mid"
        = Except.error "connection refused" :=
  ⟨rfl, by decide, by decide, rfl, by decide, by decide⟩

/-- Claim C2 (amended): the engine does not catch dialogue-backend errors.
For any request — audio or MIDI — whose chord and gated emotion are both
present, if the backend raises, the error propagates out of
`process_audio_file` respectively `process_midi_file` — the request raises
instead of returning a `GameResult` with dialogue unset (the catch-all
handler lives in the application caller `app/main.py`, not in the
engine). -/
theorem backend_error_propagates :
    (∀ (env : Env) (cfg : GameConfig) (history : List DialogueTurn) (path : String)
        (chordP : ChordPrediction) (emotionP : EmotionPrediction) (err : String),
        audioChord env cfg path = some chordP →
        infer_emotion env cfg (audioDescriptors env cfg path) = Except.ok (some emotionP) →
        env.generate emotionP.label chordP.label (audioDescriptors env cfg path) history
          = Except.error err →
        process_audio_file env cfg history path = Except.error err)
      ∧ (∀ (env : Env) (cfg : GameConfig) (history : List DialogueTurn) (path : String)
          (chordP : ChordPrediction) (emotionP : EmotionPrediction) (err : String),
          midiChord env path = some chordP →
          infer_emotion env cfg (zeroDescriptors env.FEATURE_KEYS)
            = Except.ok (some emotionP) →
          env.generate emotionP.label chordP.label (zeroDescriptors env.FEATURE_KEYS) history
            = Except.error err →
          process_midi_file env cfg history path = Except.error err) := by
  constructor
  · intro env cfg history path chordP emotionP err hch he hg
    simp only [process_audio_file]
    rw [show env.extract_essentia_descriptors (env.load_audio_samples path cfg.sample_rate).1
          (env.load_audio_samples path cfg.sample_rate).2
        = audioDescriptors env cfg path from rfl]
    rw [show env.estimate_chord
          (env.compute_chroma (env.load_audio_samples path cfg.sample_rate).1
            (env.load_audio_samples path cfg.sample_rate).2 cfg.hop_length)
        = audioChord env cfg path from rfl]
    rw [hch, he]
    simp only []
    rw [show generate_dialogue env cfg (some chordP) (some emotionP)
          (audioDescriptors env cfg path) history = Except.error err by
      simp [generate_dialogue, hg]]
  · intro env cfg history path chordP emotionP err hch he hg
    simp only [process_midi_file]
    cases hc : env.derive_chroma_from_midi path with
    | none => simp [midiChord, hc] at hch
    | some chro =>
      simp only [midiChord, hc] at hch
      simp only []
      rw [hch]
      simp only []
      rw [show env.FEATURE_KEYS.map (fun key => (key, DescValue.num 0))
          = zeroDescriptors env.FEATURE_KEYS from rfl, he]
      simp only []
      rw [show generate_dialogue env cfg (some chordP) (some emotionP)
            (zeroDescriptors env.FEATURE_KEYS) history = Except.error err by
        simp [generate_dialogue, hg]]

theorem backend_error_propagates_witness :
    process_audio_file envBackendDown cfgBase [] "song.wav"
        = Except.error "connection refused"
      ∧ process_midi_file envMidiBackendDown cfgBase [] "tune.mid"
        = Except.error "connection refused" :=
  ⟨backend_error_propagates.1 envBackendDown cfgBase [] "song.wav" ⟨"Dm"⟩
    ⟨"tense", mkRat 4 5,
      [("joyful", mkRat 1 20), ("melancholic", mkRat 1 20), ("tense", mkRat 4 5),
       ("calm", mkRat 1 10)]⟩
    "connection refused" rfl (by decide) rfl,
   backend_error_propagates.2 envMidiBackendDown cfgBase [] "tune.mid" ⟨"Dm"⟩
    ⟨"tense", mkRat 4 5,
      [("joyful", mkRat 1 20), ("melancholic", mkRat 1 20), ("tense", mkRat 4 5),
       ("calm", mkRat 1 10)]⟩
    "connection refused" rfl (by decide) rfl⟩

/-- Claim C1, counterexample: with the broadcast sink enabled and its
transport raising, `process_audio_file` and `process_midi_file` both raise
`"sink down"` — the sink failure is not caught, and the `GameResult` is
never returned to the caller. -/
theorem sink_isolation_counterexample :
    envSinkDown.send_message "/music/chord/label" (OSCValue.s "Dm")
        = Except.error "sink down"
      ∧ process_audio_file envSinkDown cfgUnreal [] "song.wav"
        = Except.error "sink down"
      ∧ process_midi_file envSinkDown cfgUnreal [] "tune.mid"
        = Except.error "sink down" :=
  ⟨rfl, by decide, by decide⟩

/-- Claim C1 (amended): sink dispatch is not isolated. A request — audio
or MIDI — returns a `GameResult` only if the (single, optional) configured
sink accepted every message: a sink `send` failure propagates out of
`process_audio_file` and `process_midi_file` instead of being caught
per-sink. The value of the returned result and of the new history is
nevertheless independent of the sink transport: two runs of either entry
point differing only in `send_message` that both return, return the same
`GameResult` and history. -/
theorem sink_failure_propagates :
    (∀ (env : Env) (cfg : GameConfig) (history : List DialogueTurn) (path : String)
        (r : GameResult) (h2 : List DialogueTurn) (tr : List Event),
        process_audio_file env cfg history path = Except.ok (r, h2, tr) →
        cfg.unreal_enabled = true → send_game_result env r = Except.ok ())
      ∧ (∀ (fk : List String) (la : String → ℤ → (List ℚ × ℤ))
            (cc : List ℚ → ℤ → ℤ → List (List ℚ))
            (ec : List (List ℚ) → Option ChordPrediction)
            (ed : List ℚ → ℤ → Descriptors)
            (dm : String → Option (List (List ℚ)))
            (p : List (String × ℚ) → EmotionPrediction)
            (gen : String → String → Descriptors → List DialogueTurn →
              Except String DialogueTurn)
            (sm sm' : String → OSCValue → Except String Unit)
            (cfg : GameConfig) (history : List DialogueTurn) (path : String)
            (r r' : GameResult) (h2 h2' : List DialogueTurn) (tr tr' : List Event),
          process_audio_file ⟨fk, la, cc, ec, ed, dm, p, gen, sm⟩ cfg history path
            = Except.ok (r, h2, tr) →
          process_audio_file ⟨fk, la, cc, ec, ed, dm, p, gen, sm'⟩ cfg history path
            = Except.ok (r', h2', tr') →
          r' = r ∧ h2' = h2)
      ∧ (∀ (env : Env) (cfg : GameConfig) (history : List DialogueTurn) (path : String)
          (r : GameResult) (h2 : List DialogueTurn) (tr : List Event),
          process_midi_file env cfg history path = Except.ok (r, h2, tr) →
          cfg.unreal_enabled = true → send_game_result env r = Except.ok ())
      ∧ (∀ (fk : List String) (la : String → ℤ → (List ℚ × ℤ))
            (cc : List ℚ → ℤ → ℤ → List (List ℚ))
            (ec : List (List ℚ) → Option ChordPrediction)
            (ed : List ℚ → ℤ → Descriptors)
            (dm : String → Option (List (List ℚ)))
            (p : List (String × ℚ) → EmotionPrediction)
            (gen : String → String → Descriptors → List DialogueTurn →
              Except String DialogueTurn)
            (sm sm' : String → OSCValue → Except String Unit)
            (cfg : GameConfig) (history : List DialogueTurn) (path : String)
            (r r' : GameResult) (h2 h2' : List DialogueTurn) (tr tr' : List Event),
          process_midi_file ⟨fk, la, cc, ec, ed, dm, p, gen, sm⟩ cfg history path
            = Except.ok (r, h2, tr) →
          process_midi_file ⟨fk, la, cc, ec, ed, dm, p, gen, sm'⟩ cfg history path
            = Except.ok (r', h2', tr') →
          r' = r ∧ h2' = h2) := by
  refine ⟨?_, ?_, ?_, ?_⟩
  · intro env cfg history path r h2 tr h hu
    obtain ⟨emotion, dialogue, devts, he, hd, hr, hsink, htr⟩ :=
      process_audio_ok_inv env cfg history path r h2 tr h
    exact hsink hu
  · intro fk la cc ec ed dm p gen sm sm' cfg history path r r' h2 h2' tr tr' h h'
    obtain ⟨e1, d1, v1, he1, hd1, hr1, _, _⟩ :=
      process_audio_ok_inv _ cfg history path r h2 tr h
    obtain ⟨e2, d2, v2, he2, hd2, hr2, _, _⟩ :=
      process_audio_ok_inv _ cfg history path r' h2' tr' h'
    have hinfer : infer_emotion ⟨fk, la, cc, ec, ed, dm, p, gen, sm'⟩ cfg
        (audioDescriptors ⟨fk, la, cc, ec, ed, dm, p, gen, sm'⟩ cfg path)
        = infer_emotion ⟨fk, la, cc, ec, ed, dm, p, gen, sm⟩ cfg
        (audioDescriptors ⟨fk, la, cc, ec, ed, dm, p, gen, sm⟩ cfg path) := rfl
    rw [hinfer, he1] at he2
    simp only [Except.ok.injEq] at he2
    subst he2
    have hgen : generate_dialogue ⟨fk, la, cc, ec, ed, dm, p, gen, sm'⟩ cfg
        (audioChord ⟨fk, la, cc, ec, ed, dm, p, gen, sm'⟩ cfg path) e1
        (audioDescriptors ⟨fk, la, cc, ec, ed, dm, p, gen, sm'⟩ cfg path) history
        = generate_dialogue ⟨fk, la, cc, ec, ed, dm, p, gen, sm⟩ cfg
        (audioChord ⟨fk, la, cc, ec, ed, dm, p, gen, sm⟩ cfg path) e1
        (audioDescriptors ⟨fk, la, cc, ec, ed, dm, p, gen, sm⟩ cfg path) history := rfl
    rw [hgen, hd1] at hd2
    simp only [Except.ok.injEq, Prod.mk.injEq] at hd2
    obtain ⟨hdd, hhh, _⟩ := hd2
    subst hdd hhh
    rw [hr1, hr2]
    exact ⟨rfl, rfl⟩
  · intro env cfg history path r h2 tr h hu
    obtain ⟨emotion, dialogue, devts, he, hd, hr, hsink, htr⟩ :=
      process_midi_ok_inv env cfg history path r h2 tr h
    exact hsink hu
  · intro fk la cc ec ed dm p gen sm sm' cfg history path r r' h2 h2' tr tr' h h'
    obtain ⟨e1, d1, v1, he1, hd1, hr1, _, _⟩ :=
      process_midi_ok_inv _ cfg history path r h2 tr h
    obtain ⟨e2, d2, v2, he2, hd2, hr2, _, _⟩ :=
      process_midi_ok_inv _ cfg history path r' h2' tr' h'
    have hmc : midiChord ⟨fk, la, cc, ec, ed, dm, p, gen, sm'⟩ path
        = midiChord ⟨fk, la, cc, ec, ed, dm, p, gen, sm⟩ path := rfl
    have hinf : infer_emotion ⟨fk, la, cc, ec, ed, dm, p, gen, sm'⟩ cfg
        (zeroDescriptors (Env.FEATURE_KEYS ⟨fk, la, cc, ec, ed, dm, p, gen, sm'⟩))
        = infer_emotion ⟨fk, la, cc, ec, ed, dm, p, gen, sm⟩ cfg
        (zeroDescriptors (Env.FEATURE_KEYS ⟨fk, la, cc, ec, ed, dm, p, gen, sm⟩)) := rfl
    simp only [hmc, hinf] at he2
    rw [he1] at he2
    simp only [Except.ok.injEq] at he2
    subst he2
    have hgen : generate_dialogue ⟨fk, la, cc, ec, ed, dm, p, gen, sm'⟩ cfg
        (midiChord ⟨fk, la, cc, ec, ed, dm, p, gen, sm'⟩ path) e1
        (zeroDescriptors (Env.FEATURE_KEYS ⟨fk, la, cc, ec, ed, dm, p, gen, sm'⟩)) history
        = generate_dialogue ⟨fk, la, cc, ec, ed, dm, p, gen, sm⟩ cfg
        (midiChord ⟨fk, la, cc, ec, ed, dm, p, gen, sm⟩ path) e1
        (zeroDescriptors (Env.FEATURE_KEYS ⟨fk, la, cc, ec, ed, dm, p, gen, sm⟩)) history := rfl
    rw [hgen, hd1] at hd2
    simp only [Except.ok.injEq, Prod.mk.injEq] at hd2
    obtain ⟨hdd, hhh, _⟩ := hd2
    subst hdd hhh
    rw [hr1, hr2]
    exact ⟨rfl, rfl⟩

theorem sink_failure_propagates_witness :
    send_game_result envBase
        { chord := some ⟨"Dm"⟩,
          emotion := some ⟨"tense", mkRat 4 5,
            [("joyful", mkRat 1 20), ("melancholic", mkRat 1 20), ("tense", mkRat 4 5),
             ("calm", mkRat 1 10)]⟩,
          descriptors := [("tempo", DescValue.num 180), ("energy", DescValue.num (mkRat 9 10))],
          dialogue := some ⟨"assistant", "hi"⟩ }
      = Except.ok ()
      ∧ send_game_result envMidiA
        { chord := some ⟨"Dm"⟩,
          emotion := some ⟨"tense", mkRat 4 5,
            [("joyful", mkRat 1 20), ("melancholic", mkRat 1 20), ("tense", mkRat 4 5),
             ("calm", mkRat 1 10)]⟩,
          descriptors := [("tempo", DescValue.num 0), ("energy", DescValue.num 0)],
          dialogue := some ⟨"assistant", "hi"⟩ }
      = Except.ok () :=
  ⟨sink_failure_propagates.1 envBase cfgUnreal [] "song.wav"
    { chord := some ⟨"Dm"⟩,
      emotion := some ⟨"tense", mkRat 4 5,
        [("joyful", mkRat 1 20), ("melancholic", mkRat 1 20), ("tense", mkRat 4 5),
         ("calm", mkRat 1 10)]⟩,
      descriptors := [("tempo", DescValue.num 180), ("energy", DescValue.num (mkRat 9 10))],
      dialogue := some ⟨"assistant", "hi"⟩ }
    [⟨"assistant", "hi"⟩]
    [Event.acquireChroma, Event.estimateChord, Event.acquireDescriptors, Event.inferEmotion,
     Event.generateDialogue, Event.mutateHistory, Event.assembleResult, Event.dispatchSink]
    (by decide) rfl,
   sink_failure_propagates.2.2.1 envMidiA cfgUnreal [] "tune.mid"
    { chord := some ⟨"Dm"⟩,
      emotion := some ⟨"tense", mkRat 4 5,
        [("joyful", mkRat 1 20), ("melancholic", mkRat 1 20), ("tense", mkRat 4 5),
         ("calm", mkRat 1 10)]⟩,
      descriptors := [("tempo", DescValue.num 0), ("energy", DescValue.num 0)],
      dialogue := some ⟨"assistant", "hi"⟩ }
    [⟨"assistant", "hi"⟩]
    [Event.acquireChroma, Event.estimateChord, Event.acquireDescriptors, Event.inferEmotion,
     Event.generateDialogue, Event.mutateHistory, Event.assembleResult, Event.dispatchSink]
    (by decide) rfl⟩

/-- Claim C6: the MIDI no-chroma path — when chroma derivation yields
none, any returned `GameResult` has chord, emotion and dialogue unset and
descriptors equal to the zero-filled mapping over the declared key set,
and no emotion-inference stage runs (the classifier is not called);
moreover, with the sink disabled, `process_midi_file` returns exactly that
result, leaving the history untouched. -/
theorem midi_no_chroma :
    (∀ (env : Env) (cfg : GameConfig) (history : List DialogueTurn) (path : String)
        (r : GameResult) (h2 : List DialogueTurn) (tr : List Event),
        env.derive_chroma_from_midi path = none →
        process_midi_file env cfg history path = Except.ok (r, h2, tr) →
        r.chord = none ∧ r.emotion = none ∧ r.dialogue = none ∧
        r.descriptors = zeroDescriptors env.FEATURE_KEYS ∧
        Event.inferEmotion ∉ tr)
      ∧ (∀ (env : Env) (cfg : GameConfig) (history : List DialogueTurn) (path : String),
          env.derive_chroma_from_midi path = none →
          cfg.unreal_enabled = false →
          process_midi_file env cfg history path
            = Except.ok (⟨none, none, zeroDescriptors env.FEATURE_KEYS, none⟩, history,
                [Event.acquireChroma, Event.acquireDescriptors, Event.assembleResult])) := by
  constructor
  · intro env cfg history path r h2 tr hc h
    obtain ⟨emotion, dialogue, devts, he, hd, hr, _, htr⟩ :=
      process_midi_ok_inv env cfg history path r h2 tr h
    have hchord : midiChord env path = none := by simp [midiChord, hc]
    rw [hchord] at he hd htr
    simp only [Except.ok.injEq] at he
    subst he
    rw [generate_dialogue_gate env cfg none none (zeroDescriptors env.FEATURE_KEYS)
      history (Or.inl rfl)] at hd
    simp only [Except.ok.injEq, Prod.mk.injEq] at hd
    obtain ⟨hdd, _, hdevts⟩ := hd
    subst hdevts
    refine ⟨by simp [hr, hchord], by simp [hr], by simp [hr, ← hdd], by simp [hr], ?_⟩
    rw [htr, hc]
    cases hb : cfg.unreal_enabled <;> simp
  · intro env cfg history path hc hu
    simp [process_midi_file, hc, hu, generate_dialogue, zeroDescriptors]

theorem midi_no_chroma_witness :
    process_midi_file envBase cfgBase [] "tune.mid"
      = Except.ok (⟨none, none, zeroDescriptors envBase.FEATURE_KEYS, none⟩, [],
          [Event.acquireChroma, Event.acquireDescriptors, Event.assembleResult]) :=
  midi_no_chroma.2 envBase cfgBase [] "tune.mid" rfl rfl

theorem generate_dialogue_events (env : Env) (cfg : GameConfig)
    (chord : Option ChordPrediction) (emotion : Option EmotionPrediction)
    (ds : Descriptors) (history : List DialogueTurn)
    (dialogue : Option DialogueTurn) (h2 : List DialogueTurn) (devts : List Event)
    (h : generate_dialogue env cfg chord emotion ds history
      = Except.ok (dialogue, h2, devts)) :
    (dialogue.isSome = true ∧ devts = [Event.generateDialogue, Event.mutateHistory])
      ∨ (dialogue = none ∧ h2 = history ∧ devts = []) := by
  cases chord with
  | none =>
    rw [generate_dialogue_gate env cfg none emotion ds history (Or.inl rfl)] at h
    simp only [Except.ok.injEq, Prod.mk.injEq] at h
    exact Or.inr ⟨h.1.symm, h.2.1.symm, h.2.2.symm⟩
  | some chordP =>
    cases emotion with
    | none =>
      rw [generate_dialogue_gate env cfg (some chordP) none ds history (Or.inr rfl)] at h
      simp only [Except.ok.injEq, Prod.mk.injEq] at h
      exact Or.inr ⟨h.1.symm, h.2.1.symm, h.2.2.symm⟩
    | some emotionP =>
      cases hg : env.generate emotionP.label chordP.label ds history with
      | error e =>
        rw [show generate_dialogue env cfg (some chordP) (some emotionP) ds history
            = Except.error e by simp [generate_dialogue, hg]] at h
        exact absurd h (by simp)
      | ok turn =>
        rw [show generate_dialogue env cfg (some chordP) (some emotionP) ds history
            = Except.ok (some turn, append_and_trim cfg.history_limit history turn,
                [Event.generateDialogue, Event.mutateHistory]) by
          simp [generate_dialogue, hg]] at h
        simp only [Except.ok.injEq, Prod.mk.injEq] at h
        exact Or.inl ⟨by rw [← h.1]; rfl, h.2.2.symm⟩

/-- Claim C7: side-effect ordering — within one request the emitted stage
events are always an order-preserving selection of the canonical §4.1
order (chroma acquisition, chord estimation, descriptor acquisition,
emotion inference, dialogue generation, history mutation, result assembly,
broadcast dispatch); result assembly always occurs, history mutation
occurs exactly when a dialogue was generated (hence strictly after
dialogue generation and strictly before assembly, by the canonical
order), and broadcast dispatch occurs exactly when the sink is configured
(hence strictly after assembly, never interleaved). -/
theorem stage_ordering :
    (∀ (env : Env) (cfg : GameConfig) (history : List DialogueTurn) (path : String)
        (r : GameResult) (h2 : List DialogueTurn) (tr : List Event),
        process_audio_file env cfg history path = Except.ok (r, h2, tr) →
        tr.Sublist canonicalStageOrder ∧
        Event.assembleResult ∈ tr ∧
        ((Event.mutateHistory ∈ tr) ↔ r.dialogue.isSome = true) ∧
        ((Event.dispatchSink ∈ tr) ↔ cfg.unreal_enabled = true))
      ∧ (∀ (env : Env) (cfg : GameConfig) (history : List DialogueTurn) (path : String)
          (r : GameResult) (h2 : List DialogueTurn) (tr : List Event),
          process_midi_file env cfg history path = Except.ok (r, h2, tr) →
          tr.Sublist canonicalStageOrder ∧
          Event.assembleResult ∈ tr ∧
          ((Event.mutateHistory ∈ tr) ↔ r.dialogue.isSome = true) ∧
          ((Event.dispatchSink ∈ tr) ↔ cfg.unreal_enabled = true)) := by
  constructor
  · intro env cfg history path r h2 tr h
    obtain ⟨emotion, dialogue, devts, he, hd, hr, _, htr⟩ :=
      process_audio_ok_inv env cfg history path r h2 tr h
    have hdial : r.dialogue = dialogue := by rw [hr]
    rcases generate_dialogue_events env cfg _ emotion _ history dialogue h2 devts hd with
      ⟨hsome, hv⟩ | ⟨hnone, _, hv⟩ <;> subst hv <;> subst htr <;>
      cases hb : cfg.unreal_enabled <;>
      simp_all [canonicalStageOrder, List.Sublist]
  · intro env cfg history path r h2 tr h
    obtain ⟨emotion, dialogue, devts, he, hd, hr, _, htr⟩ :=
      process_midi_ok_inv env cfg history path r h2 tr h
    have hdial : r.dialogue = dialogue := by rw [hr]
    rcases generate_dialogue_events env cfg _ emotion _ history dialogue h2 devts hd with
      ⟨hsome, hv⟩ | ⟨hnone, _, hv⟩ <;> subst hv <;> subst htr <;>
      cases hb : cfg.unreal_enabled <;>
      cases hc : env.derive_chroma_from_midi path <;>
      simp_all [canonicalStageOrder, midiChord] <;>
      first
      | decide
      | (cases hch : env.estimate_chord _ <;> simp_all <;> decide)

theorem stage_ordering_witness :
    List.Sublist canonicalStageOrder canonicalStageOrder
      ∧ Event.assembleResult ∈ canonicalStageOrder
      ∧ ((Event.mutateHistory ∈ canonicalStageOrder) ↔ resultFull.dialogue.isSome = true)
      ∧ ((Event.dispatchSink ∈ canonicalStageOrder) ↔ cfgUnreal.unreal_enabled = true) :=
  stage_ordering.1 envBase cfgUnreal [] "song.wav" resultFull [⟨"assistant", "hi"⟩]
    canonicalStageOrder (by decide)

theorem lookup_zeroDescriptors (fkAll : List String) (k : String) :
    dictGet (zeroDescriptors fkAll) k (DescValue.num 0) = DescValue.num 0 := by
  induction fkAll with
  | nil => rfl
  | cons a rest ih =>
    rw [zeroDescriptors, List.map_cons, dictGet, List.lookup]
    cases hka : (k == a) with
    | true => rfl
    | false => exact ih

theorem coerceKeys_zeroDescriptors (fkAll : List String) :
    ∀ keys : List String,
      coerceKeys (zeroDescriptors fkAll) keys
        = Except.ok (keys.map (fun key => (key, (0 : ℚ)))) := by
  intro keys
  induction keys with
  | nil => rfl
  | cons k rest ih =>
    simp [coerceKeys, lookup_zeroDescriptors fkAll k, pyFloat, ih]

theorem infer_emotion_zeroDescriptors (env : Env) (cfg : GameConfig) :
    infer_emotion env cfg (zeroDescriptors env.FEATURE_KEYS)
      = (if (env.predict (env.FEATURE_KEYS.map (fun key => (key, (0 : ℚ))))).confidence
            < cfg.confidence_threshold then Except.ok none
         else Except.ok
          (some (env.predict (env.FEATURE_KEYS.map (fun key => (key, (0 : ℚ))))))) := by
  rw [infer_emotion, coerce_features, coerceKeys_zeroDescriptors]

/-- Claim C9: on the MIDI path the returned result's descriptors are
always the zero-filled mapping over the declared key set, even when a
chord was detected; and the classifier is only ever consulted at the
constant all-zero feature vector — two environments whose classifiers
agree on the all-zero feature vector (but may differ everywhere else)
give identical `process_midi_file` outcomes. -/
theorem midi_zero_descriptors :
    (∀ (env : Env) (cfg : GameConfig) (history : List DialogueTurn) (path : String)
        (r : GameResult) (h2 : List DialogueTurn) (tr : List Event),
        process_midi_file env cfg history path = Except.ok (r, h2, tr) →
        r.descriptors = zeroDescriptors env.FEATURE_KEYS)
      ∧ (∀ (fk : List String) (la : String → ℤ → (List ℚ × ℤ))
            (cc : List ℚ → ℤ → ℤ → List (List ℚ))
            (ec : List (List ℚ) → Option ChordPrediction)
            (ed : List ℚ → ℤ → Descriptors)
            (dm : String → Option (List (List ℚ)))
            (p p' : List (String × ℚ) → EmotionPrediction)
            (gen : String → String → Descriptors → List DialogueTurn →
              Except String DialogueTurn)
            (sm : String → OSCValue → Except String Unit)
            (cfg : GameConfig) (history : List DialogueTurn) (path : String),
          p (fk.map (fun key => (key, (0 : ℚ)))) = p' (fk.map (fun key => (key, (0 : ℚ)))) →
          process_midi_file ⟨fk, la, cc, ec, ed, dm, p, gen, sm⟩ cfg history path
            = process_midi_file ⟨fk, la, cc, ec, ed, dm, p', gen, sm⟩ cfg history path) := by
  constructor
  · intro env cfg history path r h2 tr h
    obtain ⟨emotion, dialogue, devts, he, hd, hr, _, _⟩ :=
      process_midi_ok_inv env cfg history path r h2 tr h
    rw [hr]
  · intro fk la cc ec ed dm p p' gen sm cfg history path hpred
    have h1 : infer_emotion ⟨fk, la, cc, ec, ed, dm, p, gen, sm⟩ cfg
        (fk.map (fun key => (key, DescValue.num 0)))
        = infer_emotion ⟨fk, la, cc, ec, ed, dm, p', gen, sm⟩ cfg
        (fk.map (fun key => (key, DescValue.num 0))) := by
      show infer_emotion ⟨fk, la, cc, ec, ed, dm, p, gen, sm⟩ cfg
          (zeroDescriptors fk)
        = infer_emotion ⟨fk, la, cc, ec, ed, dm, p', gen, sm⟩ cfg
          (zeroDescriptors fk)
      rw [show zeroDescriptors fk
          = zeroDescriptors (Env.FEATURE_KEYS ⟨fk, la, cc, ec, ed, dm, p, gen, sm⟩)
          from rfl]
      rw [infer_emotion_zeroDescriptors]
      rw [show zeroDescriptors (Env.FEATURE_KEYS ⟨fk, la, cc, ec, ed, dm, p, gen, sm⟩)
          = zeroDescriptors (Env.FEATURE_KEYS ⟨fk, la, cc, ec, ed, dm, p', gen, sm⟩)
          from rfl]
      rw [infer_emotion_zeroDescriptors]
      simp only []
      rw [hpred]
    have hgen : ∀ (chord : Option ChordPrediction) (emotion : Option EmotionPrediction)
        (ds : Descriptors) (hist : List DialogueTurn),
        generate_dialogue ⟨fk, la, cc, ec, ed, dm, p, gen, sm⟩ cfg chord emotion ds hist
          = generate_dialogue ⟨fk, la, cc, ec, ed, dm, p', gen, sm⟩ cfg chord emotion ds hist := by
      intro chord emotion ds hist
      cases chord with
      | none => rfl
      | some c =>
        cases emotion with
        | none => rfl
        | some e => simp [generate_dialogue]
    have hsendAll : ∀ ms : List (String × OSCValue),
        sendAll ⟨fk, la, cc, ec, ed, dm, p, gen, sm⟩ ms
          = sendAll ⟨fk, la, cc, ec, ed, dm, p', gen, sm⟩ ms := by
      intro ms
      induction ms with
      | nil => rfl
      | cons m rest ih => simp [sendAll, ih]
    have hsend : ∀ res : GameResult,
        send_game_result ⟨fk, la, cc, ec, ed, dm, p, gen, sm⟩ res
          = send_game_result ⟨fk, la, cc, ec, ed, dm, p', gen, sm⟩ res := by
      intro res
      rw [send_game_result, send_game_result, hsendAll]
    simp only [process_midi_file]
    simp only [h1, hgen, hsend]

theorem midi_zero_descriptors_witness :
    process_midi_file envMidiA cfgBase [] "tune.mid"
      = process_midi_file { envMidiA with predict := predictAlt } cfgBase [] "tune.mid" :=
  midi_zero_descriptors.2 envMidiA.FEATURE_KEYS envMidiA.load_audio_samples
    envMidiA.compute_chroma envMidiA.estimate_chord envMidiA.extract_essentia_descriptors
    envMidiA.derive_chroma_from_midi envMidiA.predict predictAlt envMidiA.generate
    envMidiA.send_message cfgBase [] "tune.mid" (by decide)

theorem coerceKeys_total (ds : Descriptors) (keys : List String)
    (h : ∀ k, k ∈ keys → ∀ v, ds.lookup k = some v → ∃ x, v = DescValue.num x) :
    ∃ nf, coerceKeys ds keys = Except.ok nf := by
  induction keys with
  | nil => exact ⟨[], rfl⟩
  | cons k rest ih =>
    have hk : ∃ x, pyFloat (dictGet ds k (DescValue.num 0)) = Except.ok x := by
      rw [dictGet]
      cases hl : ds.lookup k with
      | none => exact ⟨0, rfl⟩
      | some v =>
        obtain ⟨x, hx⟩ := h k (List.mem_cons_self k rest) v hl
        exact ⟨x, by rw [hx]; rfl⟩
    obtain ⟨x, hx⟩ := hk
    obtain ⟨tail, htail⟩ := ih (fun k2 hk2 => h k2 (List.mem_cons_of_mem k hk2))
    exact ⟨(k, x) :: tail, by simp [coerceKeys, hx, htail]⟩

/-- Claim C10: totality of the descriptor-to-feature coercion — if every
declared feature key present in the descriptor mapping is bound to a
numeric value, the coercion never raises; and concretely, a descriptor
mapping binding the declared key `"tempo"` to the non-numeric string
`"fast"` makes the coercion's `float(...)` raise `ValueError`, which
aborts the whole audio request instead of being treated as `0.0`. -/
theorem feature_coercion_totality :
    (∀ (env : Env) (ds : Descriptors),
        (∀ k, k ∈ env.FEATURE_KEYS → ∀ v, ds.lookup k = some v →
          ∃ x, v = DescValue.num x) →
        ∃ nf, coerce_features env ds = Except.ok nf)
      ∧ coerce_features envStrDesc [("tempo", DescValue.str "fast")]
          = Except.error "ValueError"
      ∧ process_audio_file envStrDesc cfgBase [] "song.wav"
          = Except.error "ValueError" := by
  refine ⟨?_, by decide, by decide⟩
  intro env ds h
  exact coerceKeys_total ds env.FEATURE_KEYS h

theorem feature_coercion_totality_witness :
    ∃ nf, coerce_features envBase [("tempo", DescValue.num 180)] = Except.ok nf :=
  feature_coercion_totality.1 envBase [("tempo", DescValue.num 180)] (by
    intro k hk v hv
    simp only [envBase, List.mem_cons, List.not_mem_nil, or_false] at hk
    rcases hk with hk | hk <;> subst hk
    · rw [show List.lookup "tempo" [("tempo", DescValue.num 180)]
          = some (DescValue.num 180) from rfl] at hv
      exact ⟨180, (Option.some.injEq _ _ ▸ hv).symm⟩
    · rw [show List.lookup "energy" [("tempo", DescValue.num 180)]
          = (none : Option DescValue) from rfl] at hv
      exact absurd hv (by simp))

theorem string_append_take_ne (p t u : String) (n : ℕ) (h1 : n ≤ p.data.length)
    (h2 : p.data.take n ≠ u.data.take n) : p ++ t ≠ u := by
  intro h
  apply h2
  have h3 := congrArg (fun s => s.data.take n) h
  simpa [String.data_append, List.take_append_of_le_length h1] using h3

theorem string_append_take_ne_append (p q t u : String) (n : ℕ)
    (h1 : n ≤ p.data.length) (h2 : n ≤ q.data.length)
    (h3 : p.data.take n ≠ q.data.take n) : p ++ t ≠ q ++ u := by
  intro h
  apply h3
  have h4 := congrArg (fun s => s.data.take n) h
  simpa [String.data_append, List.take_append_of_le_length h1,
    List.take_append_of_le_length h2] using h4

theorem prob_addr_ne_chord (lbl : String) :
    "/music/emotion/probability/" ++ lbl ≠ "/music/chord/label" :=
  string_append_take_ne _ _ _ 8 (by decide) (by decide)

theorem prob_addr_ne_llm_content (lbl : String) :
    "/music/emotion/probability/" ++ lbl ≠ "/music/llm/content" :=
  string_append_take_ne _ _ _ 8 (by decide) (by decide)

theorem prob_addr_ne_llm_role (lbl : String) :
    "/music/emotion/probability/" ++ lbl ≠ "/music/llm/role" :=
  string_append_take_ne _ _ _ 8 (by decide) (by decide)

theorem desc_addr_ne_chord (k : String) :
    "/music/descriptor/" ++ k ≠ "/music/chord/label" :=
  string_append_take_ne _ _ _ 8 (by decide) (by decide)

theorem desc_addr_ne_emotion_label (k : String) :
    "/music/descriptor/" ++ k ≠ "/music/emotion/label" :=
  string_append_take_ne _ _ _ 8 (by decide) (by decide)

theorem desc_addr_ne_emotion_confidence (k : String) :
    "/music/descriptor/" ++ k ≠ "/music/emotion/confidence" :=
  string_append_take_ne _ _ _ 8 (by decide) (by decide)

theorem desc_addr_ne_llm_content (k : String) :
    "/music/descriptor/" ++ k ≠ "/music/llm/content" :=
  string_append_take_ne _ _ _ 8 (by decide) (by decide)

theorem desc_addr_ne_llm_role (k : String) :
    "/music/descriptor/" ++ k ≠ "/music/llm/role" :=
  string_append_take_ne _ _ _ 8 (by decide) (by decide)

theorem mem_chordMsgs (r : GameResult) (m : String × OSCValue) (h : m ∈ chordMsgs r) :
    m.1 = "/music/chord/label" := by
  cases hc : r.chord with
  | none => simp [chordMsgs, hc] at h
  | some c =>
    simp [chordMsgs, hc] at h
    rw [h]

theorem mem_emotionMsgs (r : GameResult) (m : String × OSCValue) (h : m ∈ emotionMsgs r) :
    m.1 = "/music/emotion/label" ∨ m.1 = "/music/emotion/confidence"
      ∨ ∃ lbl, m.1 = "/music/emotion/probability/" ++ lbl := by
  cases he : r.emotion with
  | none => simp [emotionMsgs, he] at h
  | some e =>
    simp [emotionMsgs, he] at h
    rcases h with h | h | ⟨a, b, hab, hm⟩
    · exact Or.inl (by rw [h])
    · exact Or.inr (Or.inl (by rw [h]))
    · exact Or.inr (Or.inr ⟨a, by rw [← hm]⟩)

theorem mem_dialogueMsgs (r : GameResult) (m : String × OSCValue) (h : m ∈ dialogueMsgs r) :
    m.1 = "/music/llm/content" ∨ m.1 = "/music/llm/role" := by
  cases hd : r.dialogue with
  | none => simp [dialogueMsgs, hd] at h
  | some d =>
    simp [dialogueMsgs, hd] at h
    rcases h with h | h
    · exact Or.inl (by rw [h])
    · exact Or.inr (by rw [h])

theorem mem_descMsgs (r : GameResult) (m : String × OSCValue) (h : m ∈ descMsgs r) :
    ∃ key, m.1 = "/music/descriptor/" ++ key := by
  simp [descMsgs] at h
  rcases h with ⟨a, b, hab, hm⟩
  exact ⟨a, by rw [← hm]⟩

theorem chordMsgs_none (r : GameResult) (hc : r.chord = none) : chordMsgs r = [] := by
  simp [chordMsgs, hc]

theorem emotionMsgs_none (r : GameResult) (he : r.emotion = none) : emotionMsgs r = [] := by
  simp [emotionMsgs, he]

theorem dialogueMsgs_none (r : GameResult) (hd : r.dialogue = none) : dialogueMsgs r = [] := by
  simp [dialogueMsgs, hd]

/-- Claim C8, counterexample: for a fully populated result the dialogue
messages are sent at `/music/llm/content` and `/music/llm/role`; no message
uses a `/music/dialogue/...` address, contradicting the claimed
`.../dialogue/content`, `.../dialogue/role` address scheme. -/
theorem broadcast_scheme_counterexample :
    (osc_messages resultFull).map Prod.fst
        = ["/music/chord/label", "/music/emotion/label", "/music/emotion/confidence",
           "/music/emotion/probability/joyful", "/music/emotion/probability/melancholic",
           "/music/emotion/probability/tense", "/music/emotion/probability/calm",
           "/music/llm/content", "/music/llm/role",
           "/music/descriptor/tempo", "/music/descriptor/energy"]
      ∧ resultFull.dialogue = some ⟨"assistant", "hi"⟩
      ∧ "/music/dialogue/content" ∉ (osc_messages resultFull).map Prod.fst
      ∧ "/music/dialogue/role" ∉ (osc_messages resultFull).map Prod.fst := by
  refine ⟨by decide, rfl, by decide, by decide⟩

/-- Claim C8 (amended): the broadcast message scheme of
`UnrealClient.send_game_result`. For every `GameResult`, the messages are
the chord block, then the emotion block, then the dialogue block, then the
descriptor block, in that order; a present chord contributes its label at
`/music/chord/label`; a present emotion contributes its label, confidence,
and one probability message per label at `/music/emotion/...`; a present
dialogue contributes its content and role at `/music/llm/content` and
`/music/llm/role` (not `.../dialogue/...`); each descriptor entry
contributes one message at `/music/descriptor/<key>`; each message carries
exactly one scalar value; and an unset optional field produces no message
for any of its addresses. -/
theorem broadcast_scheme_amended (r : GameResult) :
    (∀ c, r.chord = some c → ("/music/chord/label", OSCValue.s c.label) ∈ osc_messages r)
  ∧ (∀ e, r.emotion = some e →
      ("/music/emotion/label", OSCValue.s e.label) ∈ osc_messages r
      ∧ ("/music/emotion/confidence", OSCValue.f e.confidence) ∈ osc_messages r
      ∧ ∀ lp, lp ∈ e.probabilities →
          ("/music/emotion/probability/" ++ lp.1, OSCValue.f lp.2) ∈ osc_messages r)
  ∧ (∀ d, r.dialogue = some d →
      ("/music/llm/content", OSCValue.s d.content) ∈ osc_messages r
      ∧ ("/music/llm/role", OSCValue.s d.role) ∈ osc_messages r)
  ∧ (∀ kv, kv ∈ r.descriptors →
      ("/music/descriptor/" ++ kv.1, oscOfDescValue kv.2) ∈ osc_messages r)
  ∧ (r.chord = none → ∀ v, ("/music/chord/label", v) ∉ osc_messages r)
  ∧ (r.emotion = none → ∀ v,
      ("/music/emotion/label", v) ∉ osc_messages r
      ∧ ("/music/emotion/confidence", v) ∉ osc_messages r
      ∧ ∀ lbl, ("/music/emotion/probability/" ++ lbl, v) ∉ osc_messages r)
  ∧ (r.dialogue = none → ∀ v,
      ("/music/llm/content", v) ∉ osc_messages r
      ∧ ("/music/llm/role", v) ∉ osc_messages r)
  ∧ (∃ A B C D, osc_messages r = A ++ B ++ C ++ D
      ∧ (∀ m, m ∈ A → m.1 = "/music/chord/label")
      ∧ (∀ m, m ∈ B → m.1 = "/music/emotion/label" ∨ m.1 = "/music/emotion/confidence"
          ∨ ∃ lbl, m.1 = "/music/emotion/probability/" ++ lbl)
      ∧ (∀ m, m ∈ C → m.1 = "/music/llm/content" ∨ m.1 = "/music/llm/role")
      ∧ (∀ m, m ∈ D → ∃ key, m.1 = "/music/descriptor/" ++ key)) := by
  refine ⟨?_, ?_, ?_, ?_, ?_, ?_, ?_,
    ⟨chordMsgs r, emotionMsgs r, dialogueMsgs r, descMsgs r, rfl,
      mem_chordMsgs r, mem_emotionMsgs r, mem_dialogueMsgs r, mem_descMsgs r⟩⟩
  · intro c hc
    simp [osc_messages, chordMsgs, hc]
  · intro e he
    refine ⟨by simp [osc_messages, emotionMsgs, he], by simp [osc_messages, emotionMsgs, he], ?_⟩
    intro lp hlp
    simp only [osc_messages, List.mem_append]
    refine Or.inl (Or.inl (Or.inr ?_))
    simp only [emotionMsgs, he, List.mem_cons]
    refine Or.inr (Or.inr ?_)
    exact List.mem_map_of_mem _ hlp
  · intro d hd
    exact ⟨by simp [osc_messages, dialogueMsgs, hd], by simp [osc_messages, dialogueMsgs, hd]⟩
  · intro kv hkv
    simp only [osc_messages, List.mem_append]
    refine Or.inr ?_
    simp only [descMsgs]
    exact List.mem_map_of_mem _ hkv
  · intro hc v hmem
    rw [osc_messages, chordMsgs_none r hc] at hmem
    simp only [List.nil_append, List.mem_append] at hmem
    rcases hmem with (hm | hm) | hm
    · rcases mem_emotionMsgs r _ hm with h | h | ⟨lbl, h⟩
      · simp at h
      · simp at h
      · exact prob_addr_ne_chord lbl h.symm
    · rcases mem_dialogueMsgs r _ hm with h | h
      · simp at h
      · simp at h
    · obtain ⟨k, h⟩ := mem_descMsgs r _ hm
      exact desc_addr_ne_chord k h.symm
  · intro he v
    refine ⟨?_, ?_, ?_⟩
    · intro hmem
      rw [osc_messages, emotionMsgs_none r he] at hmem
      simp only [List.append_nil, List.mem_append] at hmem
      rcases hmem with (hm | hm) | hm
      · have h := mem_chordMsgs r _ hm
        simp at h
      · rcases mem_dialogueMsgs r _ hm with h | h
        · simp at h
        · simp at h
      · obtain ⟨k, h⟩ := mem_descMsgs r _ hm
        exact desc_addr_ne_emotion_label k h.symm
    · intro hmem
      rw [osc_messages, emotionMsgs_none r he] at hmem
      simp only [List.append_nil, List.mem_append] at hmem
      rcases hmem with (hm | hm) | hm
      · have h := mem_chordMsgs r _ hm
        simp at h
      · rcases mem_dialogueMsgs r _ hm with h | h
        · simp at h
        · simp at h
      · obtain ⟨k, h⟩ := mem_descMsgs r _ hm
        exact desc_addr_ne_emotion_confidence k h.symm
    · intro lbl hmem
      rw [osc_messages, emotionMsgs_none r he] at hmem
      simp only [List.append_nil, List.mem_append] at hmem
      rcases hmem with (hm | hm) | hm
      · exact prob_addr_ne_chord lbl (mem_chordMsgs r _ hm)
      · rcases mem_dialogueMsgs r _ hm with h | h
        · exact prob_addr_ne_llm_content lbl h
        · exact prob_addr_ne_llm_role lbl h
      · obtain ⟨k, h⟩ := mem_descMsgs r _ hm
        exact string_append_take_ne_append "/music/emotion/probability/" "/music/descriptor/"
          lbl k 8 (by decide) (by decide) (by decide) h
  · intro hd v
    refine ⟨?_, ?_⟩
    · intro hmem
      rw [osc_messages, dialogueMsgs_none r hd] at hmem
      simp only [List.append_nil, List.mem_append] at hmem
      rcases hmem with (hm | hm) | hm
      · have h := mem_chordMsgs r _ hm
        simp at h
      · rcases mem_emotionMsgs r _ hm with h | h | ⟨lbl, h⟩
        · simp at h
        · simp at h
        · exact prob_addr_ne_llm_content lbl h.symm
      · obtain ⟨k, h⟩ := mem_descMsgs r _ hm
        exact desc_addr_ne_llm_content k h.symm
    · intro hmem
      rw [osc_messages, dialogueMsgs_none r hd] at hmem
      simp only [List.append_nil, List.mem_append] at hmem
      rcases hmem with (hm | hm) | hm
      · have h := mem_chordMsgs r _ hm
        simp at h
      · rcases mem_emotionMsgs r _ hm with h | h | ⟨lbl, h⟩
        · simp at h
        · simp at h
        · exact prob_addr_ne_llm_role lbl h.symm
      · obtain ⟨k, h⟩ := mem_descMsgs r _ hm
        exact desc_addr_ne_llm_role k h.symm

theorem broadcast_scheme_amended_witness :
    ("/music/chord/label", OSCValue.s "Dm") ∈ osc_messages resultFull
      ∧ ("/music/llm/content", OSCValue.s "hi") ∈ osc_messages resultFull
      ∧ ("/music/llm/role", OSCValue.s "assistant") ∈ osc_messages resultFull :=
  ⟨(broadcast_scheme_amended resultFull).1 ⟨"Dm"⟩ rfl,
   ((broadcast_scheme_amended resultFull).2.2.1 ⟨"assistant", "hi"⟩ rfl).1,
   ((broadcast_scheme_amended resultFull).2.2.1 ⟨"assistant", "hi"⟩ rfl).2⟩
